import Mathlib

/-!
Verification of the tagging model in `mayan/apps/tags/models.py`.

The source file defines a Django model `Tag` (label, color, many-to-many
`documents` relation) with operations `attach_to`, `remove_from`,
`get_documents`, `get_document_count` and an event-emitting `save`, plus a
proxy subclass `DocumentTag`.  The Tag methods are translated directly from
the source; the external collaborators they call (the ORM's many-to-many
store, `AccessControlList.restrict_queryset`, the event emitters and the
`EventManagerSave` decorator) are not part of the source slice and are
modelled from the specification, as noted on each such definition.
-/

/-- Documents are identified by their numeric primary key. -/
abbrev DocId := Nat

/-- Users are identified by their numeric primary key. -/
abbrev UserId := Nat

/-- State of one Tag row together with its many-to-many relation rows:
label, color and the list of related document ids (`documents`). -/
structure Tag where
  id : Nat
  label : String
  color : String
  documents : List DocId
deriving Repr, DecidableEq

/-- Kinds of events the tags app emits: `event_tag_created`,
`event_tag_edited`, `event_tag_attached`, `event_tag_removed`. -/
inductive EventKind where
  | created
  | edited
  | attached
  | removed
deriving Repr, DecidableEq

/-- An emitted event record: kind, `action_object` (tag id when present),
`actor` (user id when present) and `target` (document or tag id). -/
structure Event where
  kind : EventKind
  action_object : Option Nat
  actor : Option UserId
  target : Option Nat
deriving Repr, DecidableEq

/-- Modelled from the spec: the ORM's many-to-many `add` persists the
relation and is idempotent if already attached (no duplicate add). -/
def m2mAdd (docs : List DocId) (d : DocId) : List DocId :=
  if d ∈ docs then docs else docs ++ [d]

/-- Modelled from the spec: the ORM's many-to-many `remove` deletes the
relation row; it is a tolerant no-op when the relation is absent. -/
def m2mRemove (docs : List DocId) (d : DocId) : List DocId :=
  docs.filter (fun x => x ≠ d)

/-- Modelled from the spec: the access-control subsystem, as the set of
(user, document) pairs for which the user holds the document view
permission (`permission_document_view`). -/
structure ACL where
  grants : List (UserId × DocId)
deriving Repr

/-- Whether a user holds the view permission on a document. -/
def ACL.hasView (acl : ACL) (user : UserId) (d : DocId) : Bool :=
  acl.grants.contains (user, d)

/-- Modelled from the spec: `AccessControlList.objects.restrict_queryset`
filters a document collection down to the documents on which the user
holds the given permission; absent access yields empty results, never an
error. -/
def restrict_queryset (acl : ACL) (queryset : List DocId) (user : UserId) :
    List DocId :=
  queryset.filter (fun d => acl.hasView user d)

/-- Tag.attach_to: `self.documents.add(document)` then
`event_tag_attached.commit(action_object=self, actor=user, target=document)`.
Returns the updated tag together with the list of events the call emitted. -/
def Tag.attach_to (t : Tag) (document : DocId) (user : Option UserId) :
    Tag × List Event :=
  ({ t with documents := m2mAdd t.documents document },
   [⟨EventKind.attached, some t.id, user, some document⟩])

/-- Tag.remove_from: `self.documents.remove(document)` then
`event_tag_removed.commit(action_object=self, actor=user, target=document)`.
Returns the updated tag together with the list of events the call emitted. -/
def Tag.remove_from (t : Tag) (document : DocId) (user : Option UserId) :
    Tag × List Event :=
  ({ t with documents := m2mRemove t.documents document },
   [⟨EventKind.removed, some t.id, user, some document⟩])

/-- Tag.get_documents: returns the access-filtered collection of documents
that have this tag attached, restricted by `permission_document_view` for
the given user. -/
def Tag.get_documents (t : Tag) (acl : ACL) (user : UserId) : List DocId :=
  restrict_queryset acl t.documents user

/-- Tag.get_document_count: builds the same access-restricted queryset over
`self.documents` and returns its count. -/
def Tag.get_document_count (t : Tag) (acl : ACL) (user : UserId) : Nat :=
  (restrict_queryset acl t.documents user).length

/-- The tag store: the list of persisted tag rows, in insertion order. -/
structure TagStore where
  tags : List Tag
deriving Repr, DecidableEq

/-- Look up a stored tag row by primary key. -/
def TagStore.find (s : TagStore) (id : Nat) : Option Tag :=
  s.tags.find? (fun u => u.id == id)

/-- The labels of two distinct stored rows always differ. -/
def TagStore.labelsUnique (s : TagStore) : Prop :=
  s.tags.Pairwise (fun a b => a.label ≠ b.label)

/-- The primary keys of two distinct stored rows always differ. -/
def TagStore.idsUnique (s : TagStore) : Prop :=
  s.tags.Pairwise (fun a b => a.id ≠ b.id)

instance (s : TagStore) : Decidable s.labelsUnique :=
  List.instDecidablePairwise s.tags

instance (s : TagStore) : Decidable s.idsUnique :=
  List.instDecidablePairwise s.tags

/-- Tag.save, `@method_event(event_manager_class=EventManagerSave, ...)`.
The decorator and the storage layer are modelled from the spec: on insert
the store gains the row and exactly one `created` event targeting the tag
itself is emitted; on update with changed fields the row is replaced and
exactly one `edited` event is emitted; an unchanged save emits no event;
a save that would violate the unique constraint on `label` surfaces as a
storage-layer integrity error that the Tag code does not catch. -/
def TagStore.save (s : TagStore) (t : Tag) :
    Except String (TagStore × List Event) :=
  if ∃ u ∈ s.tags, u.id ≠ t.id ∧ u.label = t.label then
    Except.error "IntegrityError: UNIQUE constraint failed: tags_tag.label"
  else
    match s.find t.id with
    | none =>
        Except.ok (⟨s.tags ++ [t]⟩,
          [⟨EventKind.created, none, none, some t.id⟩])
    | some old =>
        if old = t then
          Except.ok (⟨s.tags.map (fun u => if u.id = t.id then t else u)⟩, [])
        else
          Except.ok (⟨s.tags.map (fun u => if u.id = t.id then t else u)⟩,
            [⟨EventKind.edited, none, none, some t.id⟩])

/-- Modelled from the spec: `Meta.ordering = ('label',)` — whenever tags
are listed, the rows come back ordered by label ascending. -/
def TagStore.list_tags (s : TagStore) : List Tag :=
  s.tags.insertionSort (fun a b => a.label ≤ b.label)

/-- DocumentTag: proxy subclass of Tag (`proxy = True`); it declares no
fields and no methods of its own, so its state is a Tag row. -/
def DocumentTag := Tag

/-- DocumentTag.attach_to, inherited unchanged from Tag. -/
def DocumentTag.attach_to (t : DocumentTag) (document : DocId)
    (user : Option UserId) : Tag × List Event :=
  Tag.attach_to t document user

/-- DocumentTag.remove_from, inherited unchanged from Tag. -/
def DocumentTag.remove_from (t : DocumentTag) (document : DocId)
    (user : Option UserId) : Tag × List Event :=
  Tag.remove_from t document user

/-- DocumentTag.get_documents, inherited unchanged from Tag. -/
def DocumentTag.get_documents (t : DocumentTag) (acl : ACL) (user : UserId) :
    List DocId :=
  Tag.get_documents t acl user

/-- DocumentTag.get_document_count, inherited unchanged from Tag. -/
def DocumentTag.get_document_count (t : DocumentTag) (acl : ACL)
    (user : UserId) : Nat :=
  Tag.get_document_count t acl user

/-- DocumentTag rows live in the same table as Tag rows, so saving a
DocumentTag is the same store operation. -/
def TagStore.saveDocumentTag (s : TagStore) (t : DocumentTag) :
    Except String (TagStore × List Event) :=
  TagStore.save s t

/-! ## Helper lemmas -/

theorem mem_m2mAdd_self (docs : List DocId) (d : DocId) : d ∈ m2mAdd docs d := by
  unfold m2mAdd
  split
  · assumption
  · simp

theorem not_mem_m2mRemove_self (docs : List DocId) (d : DocId) :
    d ∉ m2mRemove docs d := by
  simp [m2mRemove]

/-! ## Claims -/

/-- C1: for every tag, access-control state and user, get_document_count
returns exactly the number of documents in the collection returned by
get_documents: both build the same view-permission-restricted queryset over
the tag's document set, and the count is its size. -/
theorem get_document_count_eq_get_documents_length (t : Tag) (acl : ACL)
    (user : UserId) :
    t.get_document_count acl user = (t.get_documents acl user).length := rfl

/-- C2: for a user holding view permission on the document, get_documents
includes the document right after attach_to, and excludes it right after
remove_from. -/
theorem attach_remove_visibility (t : Tag) (d : DocId) (actor : Option UserId)
    (acl : ACL) (user : UserId) (h : acl.hasView user d = true) :
    d ∈ (t.attach_to d actor).1.get_documents acl user ∧
    d ∉ (t.remove_from d actor).1.get_documents acl user := by
  constructor
  · simp only [Tag.attach_to, Tag.get_documents, restrict_queryset,
      List.mem_filter]
    exact ⟨mem_m2mAdd_self t.documents d, h⟩
  · intro hmem
    simp only [Tag.remove_from, Tag.get_documents, restrict_queryset,
      List.mem_filter] at hmem
    exact not_mem_m2mRemove_self t.documents d hmem.1

theorem attach_remove_visibility_witness :
    (ACL.mk [(2, 5)]).hasView 2 5 = true ∧
    (5 ∈ ((Tag.mk 1 "alpha" "ff0000" []).attach_to 5 none).1.get_documents
        (ACL.mk [(2, 5)]) 2 ∧
     5 ∉ ((Tag.mk 1 "alpha" "ff0000" []).remove_from 5 none).1.get_documents
        (ACL.mk [(2, 5)]) 2) :=
  ⟨by decide,
   attach_remove_visibility (Tag.mk 1 "alpha" "ff0000" []) 5 none
     (ACL.mk [(2, 5)]) 2 (by decide)⟩

/-- C4: a single attach_to call emits exactly one attached event and a
single remove_from call emits exactly one removed event, each carrying the
tag as action_object, the given actor as actor and the document as target. -/
theorem attach_remove_event_shape (t : Tag) (d : DocId)
    (actor : Option UserId) :
    (t.attach_to d actor).2 =
      [⟨EventKind.attached, some t.id, actor, some d⟩] ∧
    (t.remove_from d actor).2 =
      [⟨EventKind.removed, some t.id, actor, some d⟩] :=
  ⟨rfl, rfl⟩

/-- C5: attach_to is idempotent on the document set: when the document is
already attached, the tag's document set is unchanged by the call. -/
theorem attach_to_idempotent (t : Tag) (d : DocId) (actor : Option UserId)
    (h : d ∈ t.documents) :
    (t.attach_to d actor).1.documents = t.documents := by
  simp [Tag.attach_to, m2mAdd, h]

theorem attach_to_idempotent_witness :
    5 ∈ (Tag.mk 1 "alpha" "ff0000" [5]).documents ∧
    ((Tag.mk 1 "alpha" "ff0000" [5]).attach_to 5 none).1.documents =
      (Tag.mk 1 "alpha" "ff0000" [5]).documents :=
  ⟨by decide,
   attach_to_idempotent (Tag.mk 1 "alpha" "ff0000" [5]) 5 none (by decide)⟩

/-- C6: remove_from when the relation is absent is a tolerant no-op: it is a
total operation (no error) and leaves the tag, its document set included,
unchanged. -/
theorem remove_from_absent_noop (t : Tag) (d : DocId) (actor : Option UserId)
    (h : d ∉ t.documents) :
    (t.remove_from d actor).1 = t := by
  have hall : ∀ x ∈ t.documents, x ≠ d := by
    intro x hx hxd
    exact h (hxd ▸ hx)
  have hfilter : m2mRemove t.documents d = t.documents := by
    unfold m2mRemove
    refine List.filter_eq_self.mpr ?_
    intro a ha
    simpa using hall a ha
  simp [Tag.remove_from, hfilter]

theorem remove_from_absent_noop_witness :
    7 ∉ (Tag.mk 1 "alpha" "ff0000" [5]).documents ∧
    ((Tag.mk 1 "alpha" "ff0000" [5]).remove_from 7 none).1 =
      Tag.mk 1 "alpha" "ff0000" [5] :=
  ⟨by decide,
   remove_from_absent_noop (Tag.mk 1 "alpha" "ff0000" [5]) 7 none (by decide)⟩

/-- C9: DocumentTag is observationally equivalent to Tag: it carries the
same state, and attach_to, remove_from, get_documents, get_document_count
and save all behave identically when invoked on a DocumentTag. -/
theorem documentTag_observationally_eq_tag :
    (∀ (t : DocumentTag) (d : DocId) (actor : Option UserId),
       DocumentTag.attach_to t d actor = Tag.attach_to t d actor) ∧
    (∀ (t : DocumentTag) (d : DocId) (actor : Option UserId),
       DocumentTag.remove_from t d actor = Tag.remove_from t d actor) ∧
    (∀ (t : DocumentTag) (acl : ACL) (user : UserId),
       DocumentTag.get_documents t acl user = Tag.get_documents t acl user) ∧
    (∀ (t : DocumentTag) (acl : ACL) (user : UserId),
       DocumentTag.get_document_count t acl user =
         Tag.get_document_count t acl user) ∧
    (∀ (s : TagStore) (t : DocumentTag),
       TagStore.saveDocumentTag s t = TagStore.save s t) :=
  ⟨fun _ _ _ => rfl, fun _ _ _ => rfl, fun _ _ _ => rfl, fun _ _ _ => rfl,
   fun _ _ => rfl⟩

/-- C10: attach_to and remove_from emit their event unconditionally, one
event per call, even when the call is a state no-op: attach_to on an
already-attached document and remove_from on an unattached document each
still emit exactly one event. -/
theorem attach_remove_events_unconditional (t : Tag) (d e : DocId)
    (actor : Option UserId) (_hd : d ∈ t.documents) (_he : e ∉ t.documents) :
    (t.attach_to d actor).2 =
      [⟨EventKind.attached, some t.id, actor, some d⟩] ∧
    (t.remove_from e actor).2 =
      [⟨EventKind.removed, some t.id, actor, some e⟩] :=
  ⟨rfl, rfl⟩

theorem attach_remove_events_unconditional_witness :
    5 ∈ (Tag.mk 1 "alpha" "ff0000" [5]).documents ∧
    7 ∉ (Tag.mk 1 "alpha" "ff0000" [5]).documents ∧
    (((Tag.mk 1 "alpha" "ff0000" [5]).attach_to 5 (some 3)).2 =
       [⟨EventKind.attached, some 1, some 3, some 5⟩] ∧
     ((Tag.mk 1 "alpha" "ff0000" [5]).remove_from 7 (some 3)).2 =
       [⟨EventKind.removed, some 1, some 3, some 7⟩]) :=
  ⟨by decide, by decide,
   attach_remove_events_unconditional (Tag.mk 1 "alpha" "ff0000" [5]) 5 7
     (some 3) (by decide) (by decide)⟩

/-! ## Save equation lemmas -/

theorem save_clash (s : TagStore) (t : Tag)
    (hclash : ∃ u ∈ s.tags, u.id ≠ t.id ∧ u.label = t.label) :
    s.save t = Except.error
      "IntegrityError: UNIQUE constraint failed: tags_tag.label" := by
  rw [TagStore.save, if_pos hclash]

theorem save_insert (s : TagStore) (t : Tag)
    (hclash : ¬ ∃ u ∈ s.tags, u.id ≠ t.id ∧ u.label = t.label)
    (hfind : s.find t.id = none) :
    s.save t = Except.ok (⟨s.tags ++ [t]⟩,
      [⟨EventKind.created, none, none, some t.id⟩]) := by
  rw [TagStore.save, if_neg hclash, hfind]

theorem save_update (s : TagStore) (t old : Tag)
    (hclash : ¬ ∃ u ∈ s.tags, u.id ≠ t.id ∧ u.label = t.label)
    (hfind : s.find t.id = some old) (hne : old ≠ t) :
    s.save t = Except.ok
      (⟨s.tags.map (fun u => if u.id = t.id then t else u)⟩,
       [⟨EventKind.edited, none, none, some t.id⟩]) := by
  rw [TagStore.save, if_neg hclash, hfind]
  exact if_neg hne

theorem save_unchanged (s : TagStore) (t old : Tag)
    (hclash : ¬ ∃ u ∈ s.tags, u.id ≠ t.id ∧ u.label = t.label)
    (hfind : s.find t.id = some old) (heq : old = t) :
    s.save t = Except.ok
      (⟨s.tags.map (fun u => if u.id = t.id then t else u)⟩, []) := by
  rw [TagStore.save, if_neg hclash, hfind]
  exact if_pos heq

/-- C3: save emits exactly one created event targeting the tag on first
insert, exactly one edited event on an update that changes fields, and no
event on a save of an unchanged tag. -/
theorem save_event_discipline (s : TagStore) (t old : Tag)
    (r : TagStore × List Event) (h : s.save t = Except.ok r) :
    (s.find t.id = none →
       r.2 = [⟨EventKind.created, none, none, some t.id⟩]) ∧
    (s.find t.id = some old → old ≠ t →
       r.2 = [⟨EventKind.edited, none, none, some t.id⟩]) ∧
    (s.find t.id = some old → old = t → r.2 = []) := by
  have hclash : ¬ ∃ u ∈ s.tags, u.id ≠ t.id ∧ u.label = t.label := by
    intro hc
    rw [save_clash s t hc] at h
    exact Except.noConfusion h
  refine ⟨?_, ?_, ?_⟩
  · intro hfind
    rw [save_insert s t hclash hfind] at h
    injection h with h1
    subst h1
    rfl
  · intro hfind hne
    rw [save_update s t old hclash hfind hne] at h
    injection h with h1
    subst h1
    rfl
  · intro hfind heq
    rw [save_unchanged s t old hclash hfind heq] at h
    injection h with h1
    subst h1
    rfl

theorem save_event_discipline_witness :
    ((TagStore.mk [Tag.mk 1 "alpha" "ff0000" []],
        [Event.mk EventKind.created none none (some 1)]) :
      TagStore × List Event).2 =
        [Event.mk EventKind.created none none (some 1)] ∧
    ((TagStore.mk [Tag.mk 1 "beta" "ff0000" []],
        [Event.mk EventKind.edited none none (some 1)]) :
      TagStore × List Event).2 =
        [Event.mk EventKind.edited none none (some 1)] ∧
    ((TagStore.mk [Tag.mk 1 "alpha" "ff0000" []], ([] : List Event)) :
      TagStore × List Event).2 = [] :=
  ⟨(save_event_discipline ⟨[]⟩ (Tag.mk 1 "alpha" "ff0000" [])
      (Tag.mk 1 "alpha" "ff0000" [])
      (TagStore.mk [Tag.mk 1 "alpha" "ff0000" []],
        [Event.mk EventKind.created none none (some 1)]) rfl).1 rfl,
   (save_event_discipline ⟨[Tag.mk 1 "alpha" "ff0000" []]⟩
      (Tag.mk 1 "beta" "ff0000" []) (Tag.mk 1 "alpha" "ff0000" [])
      (TagStore.mk [Tag.mk 1 "beta" "ff0000" []],
        [Event.mk EventKind.edited none none (some 1)]) rfl).2.1 rfl
      (by decide),
   (save_event_discipline ⟨[Tag.mk 1 "alpha" "ff0000" []]⟩
      (Tag.mk 1 "alpha" "ff0000" []) (Tag.mk 1 "alpha" "ff0000" [])
      (TagStore.mk [Tag.mk 1 "alpha" "ff0000" []], ([] : List Event))
      rfl).2.2 rfl rfl⟩

/-- C7: label uniqueness is an invariant of the store: distinct stored tags
keep distinct labels across any successful save, and a save whose label
collides with a different stored row surfaces as the storage-layer
integrity error, which the Tag code does not catch. -/
theorem label_uniqueness_invariant (s : TagStore) (t : Tag)
    (r : TagStore × List Event) (hid : s.idsUnique) (hlab : s.labelsUnique) :
    (s.save t = Except.ok r → r.1.labelsUnique) ∧
    ((∃ u ∈ s.tags, u.id ≠ t.id ∧ u.label = t.label) →
       s.save t = Except.error
         "IntegrityError: UNIQUE constraint failed: tags_tag.label") := by
  constructor
  · intro h
    by_cases hclash : ∃ u ∈ s.tags, u.id ≠ t.id ∧ u.label = t.label
    · rw [save_clash s t hclash] at h
      exact Except.noConfusion h
    · have hno : ∀ u ∈ s.tags, u.id ≠ t.id → u.label ≠ t.label := by
        intro u hu hneid heq
        exact hclash ⟨u, hu, hneid, heq⟩
      cases hfind : s.find t.id with
      | none =>
          have hnid : ∀ u ∈ s.tags, u.id ≠ t.id := by
            intro u hu
            simp only [TagStore.find] at hfind
            have := List.find?_eq_none.mp hfind u hu
            simpa using this
          rw [save_insert s t hclash hfind] at h
          injection h with h1
          subst h1
          unfold TagStore.labelsUnique
          rw [List.pairwise_append]
          refine ⟨hlab, List.pairwise_singleton _ _, ?_⟩
          intro a ha b hb
          have hbt : b = t := by simpa using hb
          subst hbt
          exact hno a ha (hnid a ha)
      | some old =>
          have hupdate : r.1 =
              ⟨s.tags.map (fun u => if u.id = t.id then t else u)⟩ := by
            by_cases heq : old = t
            · rw [save_unchanged s t old hclash hfind heq] at h
              injection h with h1
              rw [← h1]
            · rw [save_update s t old hclash hfind heq] at h
              injection h with h1
              rw [← h1]
          rw [hupdate]
          unfold TagStore.labelsUnique
          rw [List.pairwise_map]
          have hid' : s.tags.Pairwise (fun a b => a.id ≠ b.id) := hid
          have hlab' : s.tags.Pairwise (fun a b => a.label ≠ b.label) := hlab
          refine (hid'.and hlab').imp_of_mem ?_
          intro a b ha hb hab
          by_cases ha' : a.id = t.id
          · by_cases hb' : b.id = t.id
            · exact absurd (ha'.trans hb'.symm) hab.1
            · rw [if_pos ha', if_neg hb']
              exact (hno b hb hb').symm
          · by_cases hb' : b.id = t.id
            · rw [if_neg ha', if_pos hb']
              exact hno a ha ha'
            · rw [if_neg ha', if_neg hb']
              exact hab.2
  · exact fun hclash => save_clash s t hclash

theorem label_uniqueness_invariant_witness :
    (TagStore.mk [Tag.mk 1 "alpha" "ff0000" [],
       Tag.mk 2 "beta" "00ff00" []]).labelsUnique ∧
    (TagStore.mk [Tag.mk 1 "alpha" "ff0000" []]).save
        (Tag.mk 2 "alpha" "00ff00" []) =
      Except.error "IntegrityError: UNIQUE constraint failed: tags_tag.label" :=
  ⟨(label_uniqueness_invariant ⟨[Tag.mk 1 "alpha" "ff0000" []]⟩
      (Tag.mk 2 "beta" "00ff00" [])
      (TagStore.mk [Tag.mk 1 "alpha" "ff0000" [],
         Tag.mk 2 "beta" "00ff00" []],
       [Event.mk EventKind.created none none (some 2)])
      (by decide) (by decide)).1 rfl,
   (label_uniqueness_invariant ⟨[Tag.mk 1 "alpha" "ff0000" []]⟩
      (Tag.mk 2 "alpha" "00ff00" []) (⟨[]⟩, [])
      (by decide) (by decide)).2 (by decide)⟩

/-- C8: whenever tags are listed, the result is the stored tags (a
permutation of the store) sorted by label in ascending order. -/
theorem list_tags_sorted_by_label (s : TagStore) :
    List.Sorted (fun a b : Tag => a.label ≤ b.label) s.list_tags ∧
    s.list_tags.Perm s.tags := by
  constructor
  · haveI h1 : IsTotal Tag (fun a b => a.label ≤ b.label) :=
      ⟨fun a b => le_total a.label b.label⟩
    haveI h2 : IsTrans Tag (fun a b => a.label ≤ b.label) :=
      ⟨fun _ _ _ hab hbc => le_trans hab hbc⟩
    exact List.sorted_insertionSort _ s.tags
  · exact List.perm_insertionSort _ s.tags
